import Mathlib

/-!
Shallow embedding of the AutoSummarize media pipeline
(repository 23f3001135/AutoSummarize) together with proofs that settle
the frozen claims about it.

Conventions of the embedding:
* media durations are modelled as rationals (the code manipulates them
  as Python floats; every value appearing in the claims is exact in ℚ);
* file paths are strings; the remote service, the duration probe and
  FFmpeg are oracles supplied as function arguments, so that each code
  path of the orchestrator is a total Lean function of those oracles;
* code that raises is modelled with `Except String`, the error payload
  being the exception message built by the source.
-/

/- ===================================================================
   Segmenter arithmetic
   src/processing/media_handler.py, _split_audio_multithreaded
   (lines 118-160) and _split_audio_sequential (lines 163-187).
   Both iterate `for i in range(0, int(duration), segment_duration)`
   with `chunk_duration = min(segment_duration, duration - i)` and
   `chunk_name = f"{stem}_chunk_{i // segment_duration + 1}.mp3"`.
   =================================================================== -/

/-- Python `int(duration)` for the nonnegative float duration returned
by FFprobe: truncation, which on nonnegative inputs is the floor. -/
def pyIntFloor (q : ℚ) : ℕ := q.floor.toNat

/-- Number of iterations of `range(0, int(duration), segment_duration)`,
i.e. how many chunk tasks both splitting loops prepare. -/
def numChunks (d : ℚ) (s : ℕ) : ℕ := (pyIntFloor d + s - 1) / s

/-- One prepared chunk task: start offset `i`, extracted length
`min(segment_duration, duration - i)`, and the 1-based name index
`i // segment_duration + 1`. -/
structure Chunk where
  start : ℚ
  len : ℚ
  idx : ℕ
  deriving DecidableEq, Repr

/-- The chunk tasks prepared by either splitting loop
(media_handler.py lines 130-138 and 174-184), in loop order. -/
def chunkTasks (d : ℚ) (s : ℕ) : List Chunk :=
  (List.range (numChunks d s)).map fun k =>
    ⟨((k * s : ℕ) : ℚ), min (s : ℚ) (d - ((k * s : ℕ) : ℚ)), k + 1⟩

/-- `f"{stem}_chunk_{n}.mp3"` (media_handler.py line 133 / 177). -/
def chunkName (stem : String) (n : ℕ) : String :=
  stem ++ "_chunk_" ++ toString n ++ ".mp3"

/-- The chunk file names in submission order.  In
_split_audio_multithreaded the results are collected by iterating over
`future_to_chunk` (a dict in insertion order) and blocking on each
future, so `completed_paths` holds exactly these names in this order. -/
def submittedChunkNames (stem : String) (d : ℚ) (s : ℕ) : List String :=
  (chunkTasks d s).map fun c => chunkName stem c.idx

/-- Python string comparison: lexicographic on code points. -/
def pyStrLt : List Char → List Char → Bool
  | [], [] => false
  | [], _ :: _ => true
  | _ :: _, [] => false
  | c :: cs, d :: ds => if c < d then true else if d < c then false else pyStrLt cs ds

/-- `a <= b` on Python strings (total order, so `a <= b` iff `not (b < a)`). -/
def pyStrLe (a b : String) : Bool := !(pyStrLt b.data a.data)

/-- Insertion step of `sorted` on path strings (Python compares paths
componentwise; all chunk paths share the directory, so the comparison
is the lexicographic comparison of the file names). -/
def insertLe (x : String) : List String → List String
  | [] => [x]
  | y :: ys => if pyStrLe x y then x :: y :: ys else y :: insertLe x ys

/-- Python `sorted` on a list of distinct strings (insertion sort gives
the same result as any stable sort on distinct keys). -/
def pySorted : List String → List String
  | [] => []
  | x :: xs => insertLe x (pySorted xs)

/-- `return sorted(completed_paths)` — the chunk list
_split_audio_multithreaded hands back to the orchestrator
(media_handler.py line 160). -/
def split_audio_multithreaded (stem : String) (d : ℚ) (s : ℕ) : List String :=
  pySorted (submittedChunkNames stem d s)

/-- Python `sep.join(xs)` (media_handler.py line 284). -/
def pyJoin (sep : String) : List String → String
  | [] => ""
  | [x] => x
  | x :: xs => x ++ sep ++ pyJoin sep xs

/- ===================================================================
   Remote generation retry loop
   src/processing/gemini_processor.py, _generate_content_async
   (lines 131-163): `max_attempts = 5`, `base_delay = 2`, attempts are
   numbered 1..5; a successful attempt returns immediately; a failed
   attempt with `attempt < max_attempts` sleeps
   `base_delay * 2**(attempt-1) + uniform(0, min(1.0, delay*0.1))`
   and continues (the code computes `retryable = ... or True`, so every
   failure is treated as retryable); the failure of the final attempt
   re-raises the caught exception unchanged.
   =================================================================== -/

/-- The retry loop body.  `gen a` is the outcome of attempt number `a`
of `client.models.generate_content`; `jit a` is the sampled
`random.uniform(0, jitter)` value before the sleep that follows attempt
`a`; the result pairs the returned/raised outcome with the list of
sleep durations in order.  `fuel` counts the loop iterations that
remain; the fuel-exhausted branch is the unreachable line 163
(`raise last_err if last_err else RuntimeError(...)`). -/
def retryGo (gen : ℕ → Except String String) (jit : ℕ → ℚ) (maxAttempts : ℕ) :
    ℕ → ℕ → Except String String × List ℚ
  | _, 0 => (.error "Model call failed with unknown error", [])
  | attempt, fuel + 1 =>
    match gen attempt with
    | .ok v => (.ok v, [])
    | .error e =>
      if attempt < maxAttempts then
        ((retryGo gen jit maxAttempts (attempt + 1) fuel).1,
          (2 * 2 ^ (attempt - 1) + jit attempt) ::
            (retryGo gen jit maxAttempts (attempt + 1) fuel).2)
      else
        (.error e, [])

/-- `_generate_content_async` seen from its retry behaviour: the loop
`for attempt in range(1, max_attempts + 1)` with `max_attempts = 5`. -/
def generate_content_with_retry (gen : ℕ → Except String String) (jit : ℕ → ℚ) :
    Except String String × List ℚ :=
  retryGo gen jit 5 1 5

/-- Concrete generation oracle for the C4 witness: attempts 1-4 fail,
attempt 5 succeeds. -/
def c4Gen : ℕ → Except String String :=
  fun k => if k = 5 then .ok "done" else .error ("fail " ++ toString k)

/-- Zero jitter for the C4 witness. -/
def c4Jit : ℕ → ℚ := fun _ => 0

/- ===================================================================
   generate_async upload/wait/generate/delete cycle
   src/processing/gemini_processor.py, generate_async (lines 16-72),
   file-upload scenario: `file = None`; try: upload, wait-for-ACTIVE,
   generate (with retry); finally: if `file and file.name` then
   `client.files.delete(name=file.name or "")` guarded so an empty name
   is skipped, and a delete failure is only logged.
   =================================================================== -/

/-- A remote file handle as returned by the upload / get calls. -/
structure RemoteFile where
  name : Option String
  deriving DecidableEq, Repr

/-- Oracles for one `generate_async(file_path=...)` invocation. -/
structure GenEnv where
  upload : Except String RemoteFile
  waitP : RemoteFile → Except String RemoteFile
  gen : ℕ → Except String String
  jit : ℕ → ℚ

/-- The remote names the finally block passes to `client.files.delete`:
`if file and getattr(file, "name", None):` then
`remote_name = file.name or ""` and the delete runs iff the name is
non-empty. -/
def deleteTargets (f : RemoteFile) : List String :=
  match f.name with
  | none => []
  | some n => if n = "" then [] else [n]

/-- Result of a `generate_async` invocation together with the delete
calls issued by the finally block. -/
structure GenOut where
  result : Except String String
  deletes : List String

/-- `generate_async` in the file scenario.  The local `file` variable
is `None` until the upload returns, is replaced by the waited handle
when `_wait_for_processing_async` returns, and the finally block
deletes whatever handle `file` holds at unwind time. -/
def generate_async (env : GenEnv) : GenOut :=
  match env.upload with
  | .error e => ⟨.error e, []⟩
  | .ok f =>
    match env.waitP f with
    | .error e => ⟨.error e, deleteTargets f⟩
    | .ok f2 => ⟨(generate_content_with_retry env.gen env.jit).1, deleteTargets f2⟩

/-- Concrete C7 witness environment: upload succeeds with handle
`files/abc123`, waiting succeeds with the same handle, and every
generation attempt fails, so the retry sequence exhausts. -/
def c7Env : GenEnv :=
  ⟨.ok ⟨some "files/abc123"⟩, fun f => .ok f, fun _ => .error "503", fun _ => 0⟩

/- ===================================================================
   _split_audio: parallel attempt, cleanup, sequential fallback
   src/processing/media_handler.py, _split_audio (lines 87-115).
   =================================================================== -/

/-- Which splitting strategies were attempted, in order. -/
inductive SplitPhase
  | parallel
  | sequential
  deriving DecidableEq, Repr

/-- Outcome of one splitting strategy: the returned chunk list or the
raised error, together with the chunk files (all matching the glob
pattern `{stem}_chunk_*.mp3`) present in the output directory when the
strategy finishes or raises. -/
structure SplitAttempt where
  res : Except String (List String)
  written : List String

/-- Result of `_split_audio`: final outcome, the chunk files left in
the output directory, and the strategies attempted in order. -/
structure SplitOut where
  res : Except String (List String)
  files : List String
  phases : List SplitPhase

/-- `_split_audio`: try `_split_audio_multithreaded`; on any exception
unlink every `{stem}_chunk_*.mp3` in the output directory and run
`_split_audio_sequential`; if that also raises, the outer handler
unlinks every chunk file again and re-raises.  The sequential attempt
starts from an empty directory because the inner cleanup removed all
chunk files, so the directory afterwards holds exactly the files the
sequential attempt wrote. -/
def split_audio (mt sq : SplitAttempt) : SplitOut :=
  match mt.res with
  | .ok paths => ⟨.ok paths, mt.written, [.parallel]⟩
  | .error _ =>
    match sq.res with
    | .ok paths => ⟨.ok paths, sq.written, [.parallel, .sequential]⟩
    | .error e => ⟨.error e, [], [.parallel, .sequential]⟩

/-- Concrete C8 witness attempts: the parallel attempt fails having
written two partial chunks, the sequential retry succeeds. -/
def c8Mt : SplitAttempt := ⟨.error "ffmpeg crashed", ["a_chunk_1.mp3", "a_chunk_3.mp3"]⟩

/-- Sequential attempt for the C8 witness: writes and returns all
three chunks. -/
def c8Sq : SplitAttempt :=
  ⟨.ok ["a_chunk_1.mp3", "a_chunk_2.mp3", "a_chunk_3.mp3"],
    ["a_chunk_1.mp3", "a_chunk_2.mp3", "a_chunk_3.mp3"]⟩

/- ===================================================================
   Pipeline orchestrator
   src/processing/media_handler.py, process_single_file (lines
   190-310), and src/app.py, run_summarization_task (lines 67-167)
   with update_job_progress (lines 48-65).
   Progress percentages are integers; the only non-literal one is
   `int(35 + (i / len(chunk_paths)) * 50)`, modelled exactly as
   `35 + 50 * i / n` in ℕ (floor division), since
   `int(35 + x) = 35 + int(x)` for `x ≥ 0`.
   =================================================================== -/

/-- Oracles and configuration for one job run: the API key from the
environment, the uploaded file path, `max_duration_seconds` from
`get_config()`, and the outcomes of the FFprobe duration probe, of
`_split_audio`, of `transcribe_chunk_async` per input path, and of
`generate_async` (summarization) per transcript. -/
structure Env where
  apiKey : String
  filePath : String
  maxDuration : ℚ
  probe : Except String ℚ
  split : Except String (List String)
  transcribe : String → Except String String
  summarize : String → Except String String

/-- Filesystem events of a run that the claims are about: the chunked
branch enters `with tempfile.TemporaryDirectory()` (mkChunkDir) and the
context manager removes it on every exit (rmChunkDir); the finally
block of run_summarization_task removes the uploaded temp file
(rmUpload). -/
inductive FsEvent
  | mkChunkDir
  | rmChunkDir
  | rmUpload
  deriving DecidableEq, Repr

/-- State produced by the sequential chunk transcription loop: the
collected transcripts (or the first raised error), the progress values
emitted, and the chunk paths actually sent to transcription. -/
structure LoopOut where
  res : Except String (List String)
  prog : List ℕ
  inputs : List String

/-- The loop `for i, chunk in enumerate(chunk_paths)` (media_handler.py
lines 273-282): before transcribing chunk `i` it emits
`int(35 + (i / n) * 50)` where `n` is the total chunk count, then
transcribes chunk `i`; a raised transcription error aborts the loop
(the inter-chunk `asyncio.sleep(6)` has no observable effect here). -/
def chunkLoop (tr : String → Except String String) (n : ℕ) :
    List String → ℕ → LoopOut
  | [], _ => ⟨.ok [], [], []⟩
  | c :: cs, i =>
    match tr c with
    | .error e => ⟨.error e, [35 + 50 * i / n], [c]⟩
    | .ok t =>
      ⟨(chunkLoop tr n cs (i + 1)).res.map (t :: ·),
        (35 + 50 * i / n) :: (chunkLoop tr n cs (i + 1)).prog,
        c :: (chunkLoop tr n cs (i + 1)).inputs⟩

/-- Observable outcome of the async `main()` inside
process_single_file: the returned summary/transcript pair or the
raised error, the progress values emitted through the callback, how
often `_split_audio` ran, the inputs passed to `transcribe_chunk_async`
and to the summarization `generate_async`, and the filesystem events. -/
structure RunOut where
  result : Except String (String × String)
  prog : List ℕ
  splitCalls : ℕ
  transcribeInputs : List String
  summarizeInputs : List String
  fs : List FsEvent

/-- The async `main()` of process_single_file (media_handler.py lines
212-301), branch by branch:
api-key check; probe; `update_progress(10)` / `(20)`; then the direct
branch (`duration <= max_duration_seconds`) with progress
30 / 70 / 90 / 95 and the empty-transcript check after progress 70, or
the chunked branch with progress 25 / 35, the chunk loop, the
empty-joined-transcript check, then progress 85 / 95. -/
def mainRun (env : Env) : RunOut :=
  if env.apiKey = "" then
    ⟨.error "GEMINI_API_KEY not found in environment.", [], 0, [], [], []⟩
  else
    match env.probe with
    | .error e => ⟨.error e, [10], 0, [], [], []⟩
    | .ok duration =>
      if duration ≤ env.maxDuration then
        match env.transcribe env.filePath with
        | .error e => ⟨.error e, [10, 20, 30], 0, [env.filePath], [], []⟩
        | .ok t =>
          if t = "" then
            ⟨.error "Transcription returned an empty result.",
              [10, 20, 30, 70], 0, [env.filePath], [], []⟩
          else
            match env.summarize t with
            | .error e => ⟨.error e, [10, 20, 30, 70, 90], 0, [env.filePath], [t], []⟩
            | .ok s =>
              ⟨.ok (s, t), [10, 20, 30, 70, 90, 95], 0, [env.filePath], [t], []⟩
      else
        match env.split with
        | .error e =>
          ⟨.error e, [10, 20, 25], 1, [], [], [.mkChunkDir, .rmChunkDir]⟩
        | .ok chunks =>
          if chunks = [] then
            ⟨.error "File splitting resulted in no chunks.",
              [10, 20, 25], 1, [], [], [.mkChunkDir, .rmChunkDir]⟩
          else
            match (chunkLoop env.transcribe chunks.length chunks 0).res with
            | .error e =>
              ⟨.error e, [10, 20, 25, 35] ++ (chunkLoop env.transcribe chunks.length chunks 0).prog,
                1, (chunkLoop env.transcribe chunks.length chunks 0).inputs, [],
                [.mkChunkDir, .rmChunkDir]⟩
            | .ok ts =>
              if pyJoin "\n" ts = "" then
                ⟨.error "Transcription of chunks returned an empty result.",
                  [10, 20, 25, 35] ++ (chunkLoop env.transcribe chunks.length chunks 0).prog,
                  1, (chunkLoop env.transcribe chunks.length chunks 0).inputs, [],
                  [.mkChunkDir, .rmChunkDir]⟩
              else
                match env.summarize (pyJoin "\n" ts) with
                | .error e =>
                  ⟨.error e,
                    [10, 20, 25, 35] ++ (chunkLoop env.transcribe chunks.length chunks 0).prog ++ [85],
                    1, (chunkLoop env.transcribe chunks.length chunks 0).inputs,
                    [pyJoin "\n" ts], [.mkChunkDir, .rmChunkDir]⟩
                | .ok s =>
                  ⟨.ok (s, pyJoin "\n" ts),
                    [10, 20, 25, 35] ++ (chunkLoop env.transcribe chunks.length chunks 0).prog ++ [85, 95],
                    1, (chunkLoop env.transcribe chunks.length chunks 0).inputs,
                    [pyJoin "\n" ts], [.mkChunkDir, .rmChunkDir]⟩

/-- The dict process_single_file returns: on success the summary and
transcript of `main()`; on any raised exception the except handler
(media_handler.py lines 308-310) returns
`{"summary": f"An error occurred during processing: {e}",
"transcript": None}` — it does not re-raise and it has no "error"
key. -/
structure ProcDict where
  summary : String
  transcript : Option String

/-- process_single_file = run `main()`, catch every exception into the
error dict. -/
def process_single_file (env : Env) : ProcDict :=
  match (mainRun env).result with
  | .ok (s, t) => ⟨s, some t⟩
  | .error e => ⟨"An error occurred during processing: " ++ e, none⟩

/-- Job status values of the job record (src/models.py / src/app.py). -/
inductive JobStatus
  | PENDING
  | PROCESSING
  | COMPLETED
  | FAILED
  deriving DecidableEq, Repr

/-- The terminal job record of run_summarization_task together with
the full progress trace and filesystem event trace of the job. -/
structure JobFinal where
  status : JobStatus
  summary : Option String
  transcript : Option String
  error : Option String
  prog : List ℕ
  fs : List FsEvent

/-- run_summarization_task (app.py lines 67-167): sets PROCESSING with
progress 0, emits progress 5, runs process_single_file, then applies
the check on line 99:
`(not result_data) or result_data.get("error") or
(not result_data.get("summary"))`.
The dict always has two keys (never falsy) and never an "error" key,
so only the empty-summary test can fire; when it fires, the raised
ValueError carries `result_data.get("error") or "Processing returned
no summary."`, i.e. the fixed message, and the job is FAILED.
Otherwise progress 100 is emitted and the job is COMPLETED with the
returned summary and transcript.  The finally block always removes the
uploaded temp file as the last step. -/
def run_summarization_task (env : Env) : JobFinal :=
  if (process_single_file env).summary = "" then
    ⟨.FAILED, none, none, some "Processing returned no summary.",
      [0, 5] ++ (mainRun env).prog, (mainRun env).fs ++ [.rmUpload]⟩
  else
    ⟨.COMPLETED, some (process_single_file env).summary,
      (process_single_file env).transcript, none,
      [0, 5] ++ (mainRun env).prog ++ [100], (mainRun env).fs ++ [.rmUpload]⟩

/-- C1 failing environment: a short file (600s ≤ 1800s) whose
transcription step raises. -/
def c1Env : Env :=
  ⟨"key", "upload.mp4", 1800, .ok 600, .error "unused",
    fun _ => .error "Transcription failed", fun _ => .ok "unused"⟩

/-- C5 witness environment: a chunked run (duration 3600 > 1800) with
three chunks, all successful. -/
def c5Env : Env :=
  ⟨"key", "upload.mp4", 1800, .ok 3600, .ok ["c1.mp3", "c2.mp3", "c3.mp3"],
    fun c => .ok ("text of " ++ c), fun _ => .ok "summary"⟩

/-- C6 witness environment: a short file (600s ≤ 1800s) transcribed
and summarized directly. -/
def c6Env : Env :=
  ⟨"key", "upload.mp4", 1800, .ok 600, .error "unused",
    fun _ => .ok "a transcript", fun t => .ok ("summary of " ++ t)⟩

/-- C10 witness environment: a chunked run with two chunks whose
transcriptions both return the empty string. -/
def c10Env : Env :=
  ⟨"key", "upload.mp4", 1800, .ok 3600, .ok ["c1.mp3", "c2.mp3"],
    fun _ => .ok "", fun t => .ok ("summary of " ++ t)⟩

/-- A string of `k` newline characters — the value of
`"\n".join(transcripts)` when every transcript is empty. -/
def newlines (k : ℕ) : String := ⟨List.replicate k '\n'⟩

/- ===================================================================
   Claim theorems for the segmenter (C2, C3).
   =================================================================== -/

/-- C2: the claim that the chunk list handed to transcription is in
ascending chunk index order for every chunk count fails at ten chunks:
`sorted` compares the path strings lexicographically, so
`rec_chunk_10.mp3` is placed directly after `rec_chunk_1.mp3` and
before `rec_chunk_2.mp3`, and the transcript joined in list order
differs from the transcript joined in ascending index order. -/
theorem c2_chunk_order_lexicographic :
    split_audio_multithreaded "rec" 100 10 ≠ submittedChunkNames "rec" 100 10 ∧
    (split_audio_multithreaded "rec" 100 10)[1]? = some "rec_chunk_10.mp3" ∧
    (submittedChunkNames "rec" 100 10)[1]? = some "rec_chunk_2.mp3" ∧
    pyJoin "\n" (split_audio_multithreaded "rec" 100 10) ≠
      pyJoin "\n" (submittedChunkNames "rec" 100 10) := by
  decide

/-- C3: the claim that for every positive duration the chunk list covers
the whole of `[0, duration)` with count `ceil(duration / segment)` fails
at `duration = 21/2, segment = 5`: `range(0, int(10.5), 5)` prepares only
two chunks of length 5 each, the claimed count is 3, and the chunks end
at second 10, strictly below the duration, dropping the final tail. -/
theorem c3_fractional_duration_tail_dropped :
    chunkTasks (21 / 2) 5 = [⟨0, 5, 1⟩, ⟨5, 5, 2⟩] ∧
    (chunkTasks (21 / 2) 5).length = 2 ∧
    ⌈(21 / 2 : ℚ) / 5⌉ = 3 ∧
    (5 : ℚ) + min (5 : ℚ) (21 / 2 - 5) < 21 / 2 := by
  have hfl : pyIntFloor (21 / 2) = 10 := by
    have h10 : (⌊(21 / 2 : ℚ)⌋) = 10 := by norm_num
    rw [pyIntFloor, Rat.floor_def', ← Rat.floor_def, h10]
    rfl
  have hn : numChunks (21 / 2) 5 = 2 := by rw [numChunks, hfl]
  have hlist : chunkTasks (21 / 2) 5 = [⟨0, 5, 1⟩, ⟨5, 5, 2⟩] := by
    rw [chunkTasks, hn]
    norm_num [List.range_succ, Chunk.mk.injEq, min_def]
  refine ⟨hlist, by rw [hlist]; rfl, ?_, ?_⟩
  · rw [Int.ceil_eq_iff]
    norm_num
  · norm_num [min_def]

/- ===================================================================
   Claim theorems for the retry loop (C4).
   =================================================================== -/

theorem retryGo_ok {gen : ℕ → Except String String} {jit : ℕ → ℚ} {m a f : ℕ}
    {v : String} (h : gen a = .ok v) :
    retryGo gen jit m a (f + 1) = (.ok v, []) := by
  simp [retryGo, h]

theorem retryGo_error_continue {gen : ℕ → Except String String} {jit : ℕ → ℚ}
    {m a f : ℕ} {e : String} (h : gen a = .error e) (hlt : a < m) :
    retryGo gen jit m a (f + 1) =
      ((retryGo gen jit m (a + 1) f).1,
        (2 * 2 ^ (a - 1) + jit a) :: (retryGo gen jit m (a + 1) f).2) := by
  simp [retryGo, h, hlt]

theorem retryGo_error_last {gen : ℕ → Except String String} {jit : ℕ → ℚ}
    {m a f : ℕ} {e : String} (h : gen a = .error e) (hge : ¬ a < m) :
    retryGo gen jit m a (f + 1) = (.error e, []) := by
  simp [retryGo, h, hge]

/-- C4: the generation call is attempted at most 5 times (the outcome
depends only on attempts 1-5); a successful attempt returns its result,
in particular 4 failures followed by a success on attempt 5 return the
success; the sleep between attempt `n` and attempt `n+1` is
`base_delay * 2^(n-1) + jitter` with `base_delay = 2`; and when all
5 attempts fail, the error of attempt 5 is raised unchanged. -/
theorem c4_generation_retry_policy (gen : ℕ → Except String String) (jit : ℕ → ℚ) :
    (∀ gen2 : ℕ → Except String String, (∀ k, 1 ≤ k → k ≤ 5 → gen2 k = gen k) →
      generate_content_with_retry gen2 jit = generate_content_with_retry gen jit) ∧
    (∀ k v, 1 ≤ k → k ≤ 5 → gen k = .ok v →
      (∀ j, 1 ≤ j → j < k → ∃ e, gen j = .error e) →
      (generate_content_with_retry gen jit).1 = .ok v) ∧
    (∀ e1 e2 e3 e4 v, gen 1 = .error e1 → gen 2 = .error e2 → gen 3 = .error e3 →
      gen 4 = .error e4 → gen 5 = .ok v →
      generate_content_with_retry gen jit =
        (.ok v, [2 * 2 ^ 0 + jit 1, 2 * 2 ^ 1 + jit 2, 2 * 2 ^ 2 + jit 3,
          2 * 2 ^ 3 + jit 4])) ∧
    (∀ e1 e2 e3 e4 e5, gen 1 = .error e1 → gen 2 = .error e2 → gen 3 = .error e3 →
      gen 4 = .error e4 → gen 5 = .error e5 →
      generate_content_with_retry gen jit =
        (.error e5, [2 * 2 ^ 0 + jit 1, 2 * 2 ^ 1 + jit 2, 2 * 2 ^ 2 + jit 3,
          2 * 2 ^ 3 + jit 4])) := by
  refine ⟨?_, ?_, ?_, ?_⟩
  · intro gen2 hagree
    have h1 := hagree 1 (by norm_num) (by norm_num)
    have h2 := hagree 2 (by norm_num) (by norm_num)
    have h3 := hagree 3 (by norm_num) (by norm_num)
    have h4 := hagree 4 (by norm_num) (by norm_num)
    have h5 := hagree 5 (by norm_num) (by norm_num)
    rw [generate_content_with_retry, generate_content_with_retry]
    have g5 : retryGo gen2 jit 5 5 1 = retryGo gen jit 5 5 1 := by
      cases hg : gen 5 with
      | ok v => rw [retryGo_ok (h5.trans hg), retryGo_ok hg]
      | error e => rw [retryGo_error_last (h5.trans hg) (by norm_num),
          retryGo_error_last hg (by norm_num)]
    have g4 : retryGo gen2 jit 5 4 2 = retryGo gen jit 5 4 2 := by
      cases hg : gen 4 with
      | ok v => rw [retryGo_ok (h4.trans hg), retryGo_ok hg]
      | error e => rw [retryGo_error_continue (h4.trans hg) (by norm_num),
          retryGo_error_continue hg (by norm_num), g5]
    have g3 : retryGo gen2 jit 5 3 3 = retryGo gen jit 5 3 3 := by
      cases hg : gen 3 with
      | ok v => rw [retryGo_ok (h3.trans hg), retryGo_ok hg]
      | error e => rw [retryGo_error_continue (h3.trans hg) (by norm_num),
          retryGo_error_continue hg (by norm_num), g4]
    have g2 : retryGo gen2 jit 5 2 4 = retryGo gen jit 5 2 4 := by
      cases hg : gen 2 with
      | ok v => rw [retryGo_ok (h2.trans hg), retryGo_ok hg]
      | error e => rw [retryGo_error_continue (h2.trans hg) (by norm_num),
          retryGo_error_continue hg (by norm_num), g3]
    cases hg : gen 1 with
    | ok v => rw [retryGo_ok (h1.trans hg), retryGo_ok hg]
    | error e => rw [retryGo_error_continue (h1.trans hg) (by norm_num),
        retryGo_error_continue hg (by norm_num), g2]
  · intro k v hk1 hk5 hok hprev
    interval_cases k
    · rw [generate_content_with_retry, retryGo_ok hok]
    · obtain ⟨e1, he1⟩ := hprev 1 (by norm_num) (by norm_num)
      rw [generate_content_with_retry, retryGo_error_continue he1 (by norm_num),
        retryGo_ok hok]
    · obtain ⟨e1, he1⟩ := hprev 1 (by norm_num) (by norm_num)
      obtain ⟨e2, he2⟩ := hprev 2 (by norm_num) (by norm_num)
      rw [generate_content_with_retry, retryGo_error_continue he1 (by norm_num),
        retryGo_error_continue he2 (by norm_num), retryGo_ok hok]
    · obtain ⟨e1, he1⟩ := hprev 1 (by norm_num) (by norm_num)
      obtain ⟨e2, he2⟩ := hprev 2 (by norm_num) (by norm_num)
      obtain ⟨e3, he3⟩ := hprev 3 (by norm_num) (by norm_num)
      rw [generate_content_with_retry, retryGo_error_continue he1 (by norm_num),
        retryGo_error_continue he2 (by norm_num),
        retryGo_error_continue he3 (by norm_num), retryGo_ok hok]
    · obtain ⟨e1, he1⟩ := hprev 1 (by norm_num) (by norm_num)
      obtain ⟨e2, he2⟩ := hprev 2 (by norm_num) (by norm_num)
      obtain ⟨e3, he3⟩ := hprev 3 (by norm_num) (by norm_num)
      obtain ⟨e4, he4⟩ := hprev 4 (by norm_num) (by norm_num)
      rw [generate_content_with_retry, retryGo_error_continue he1 (by norm_num),
        retryGo_error_continue he2 (by norm_num),
        retryGo_error_continue he3 (by norm_num),
        retryGo_error_continue he4 (by norm_num), retryGo_ok hok]
  · intro e1 e2 e3 e4 v he1 he2 he3 he4 hok
    rw [generate_content_with_retry, retryGo_error_continue he1 (by norm_num),
      retryGo_error_continue he2 (by norm_num),
      retryGo_error_continue he3 (by norm_num),
      retryGo_error_continue he4 (by norm_num), retryGo_ok hok]
  · intro e1 e2 e3 e4 e5 he1 he2 he3 he4 he5
    rw [generate_content_with_retry, retryGo_error_continue he1 (by norm_num),
      retryGo_error_continue he2 (by norm_num),
      retryGo_error_continue he3 (by norm_num),
      retryGo_error_continue he4 (by norm_num),
      retryGo_error_last he5 (by norm_num)]

/-- C4 witness: a generation oracle that fails on attempts 1-4 and
succeeds on attempt 5 returns the success, after sleeps 2, 4, 8, 16
(zero jitter). -/
theorem c4_generation_retry_policy_witness :
    generate_content_with_retry c4Gen c4Jit = (Except.ok "done", [2, 4, 8, 16]) := by
  have h := (c4_generation_retry_policy c4Gen c4Jit).2.2.1
    "fail 1" "fail 2" "fail 3" "fail 4" "done" rfl rfl rfl rfl rfl
  rw [h]
  norm_num [c4Jit]

/- ===================================================================
   Claim theorems for generate_async cleanup (C7) and the split
   fallback policy (C8).
   =================================================================== -/

/-- C7: whenever the upload step succeeded (so a file exists on the
remote side, carried by a handle with a non-empty name), the finally
block issues exactly one remote delete — on the path where waiting
fails, and on the path where waiting succeeds regardless of the
generation outcome, hence also when the retry sequence exhausts; and
the delete call count never exceeds one. -/
theorem c7_remote_delete_guaranteed (env : GenEnv) (f : RemoteFile) (n : String)
    (hu : env.upload = .ok f) (hn : f.name = some n) (hne : n ≠ "") :
    (∀ e, env.waitP f = .error e → (generate_async env).deletes = [n]) ∧
    (∀ f2 m, env.waitP f = .ok f2 → f2.name = some m → m ≠ "" →
      (generate_async env).deletes = [m] ∧
      (generate_async env).result = (generate_content_with_retry env.gen env.jit).1) ∧
    (generate_async env).deletes.length ≤ 1 := by
  refine ⟨?_, ?_, ?_⟩
  · intro e hw
    simp only [generate_async, hu, hw, deleteTargets, hn, if_neg hne]
  · intro f2 m hw hm hme
    refine ⟨?_, ?_⟩
    · simp only [generate_async, hu, hw, deleteTargets, hm, if_neg hme]
    · simp only [generate_async, hu, hw]
  · cases hw : env.waitP f with
    | error e =>
      simp only [generate_async, hu, hw, deleteTargets, hn, if_neg hne,
        List.length_cons, List.length_nil]
      omega
    | ok f2 =>
      simp only [generate_async, hu, hw, deleteTargets]
      cases hfn : f2.name with
      | none => simp [hfn]
      | some m =>
        by_cases hme : m = "" <;> simp [hfn, hme]

/-- C7 witness: with a successful upload of handle `files/abc123`, a
wait that returns the same handle, and a generation call that fails on
all five attempts, the remote handle is still deleted exactly once and
the exhausted retry error is returned. -/
theorem c7_remote_delete_guaranteed_witness :
    (generate_async c7Env).deletes = ["files/abc123"] ∧
    (generate_async c7Env).result = Except.error "503" := by
  have h := (c7_remote_delete_guaranteed c7Env ⟨some "files/abc123"⟩ "files/abc123"
    rfl rfl (by decide)).2.1 ⟨some "files/abc123"⟩ "files/abc123" rfl rfl (by decide)
  refine ⟨h.1, ?_⟩
  rw [h.2]
  have hex := (c4_generation_retry_policy (fun _ => .error "503") (fun _ => 0)).2.2.2
    "503" "503" "503" "503" "503" rfl rfl rfl rfl rfl
  rw [show c7Env.gen = (fun _ => Except.error "503") from rfl,
    show c7Env.jit = (fun _ => (0 : ℚ)) from rfl, hex]

/-- C8: `_split_audio` always attempts the parallel strategy first; if
the parallel attempt succeeds its complete chunk list is returned with
the sequential strategy never attempted; if the parallel attempt fails,
every partially written chunk file is unlinked and the whole split is
retried sequentially; if the sequential retry succeeds its chunk list
is returned, and if it also fails the error propagates with every
chunk file removed from the output directory. -/
theorem c8_split_parallel_then_sequential (mt sq : SplitAttempt) :
    (split_audio mt sq).phases.head? = some SplitPhase.parallel ∧
    (∀ ps, mt.res = .ok ps →
      (split_audio mt sq).res = .ok ps ∧
      (split_audio mt sq).phases = [SplitPhase.parallel]) ∧
    (∀ e, mt.res = .error e →
      (split_audio mt sq).phases = [SplitPhase.parallel, SplitPhase.sequential] ∧
      (∀ ps, sq.res = .ok ps →
        (split_audio mt sq).res = .ok ps ∧ (split_audio mt sq).files = sq.written) ∧
      (∀ e2, sq.res = .error e2 →
        (split_audio mt sq).res = .error e2 ∧ (split_audio mt sq).files = [])) := by
  refine ⟨?_, ?_, ?_⟩
  · cases hmt : mt.res with
    | ok ps => simp [split_audio, hmt]
    | error e =>
      cases hsq : sq.res with
      | ok ps => simp [split_audio, hmt, hsq]
      | error e2 => simp [split_audio, hmt, hsq]
  · intro ps hmt
    simp [split_audio, hmt]
  · intro e hmt
    refine ⟨?_, ?_, ?_⟩
    · cases hsq : sq.res with
      | ok ps => simp [split_audio, hmt, hsq]
      | error e2 => simp [split_audio, hmt, hsq]
    · intro ps hsq
      simp [split_audio, hmt, hsq]
    · intro e2 hsq
      simp [split_audio, hmt, hsq]

/-- C8 witness: the parallel attempt fails after writing two partial
chunks; the sequential retry is then run and returns all three chunks,
which are exactly the files left in the output directory. -/
theorem c8_split_parallel_then_sequential_witness :
    (split_audio c8Mt c8Sq).phases = [SplitPhase.parallel, SplitPhase.sequential] ∧
    (split_audio c8Mt c8Sq).res =
      Except.ok ["a_chunk_1.mp3", "a_chunk_2.mp3", "a_chunk_3.mp3"] ∧
    (split_audio c8Mt c8Sq).files =
      ["a_chunk_1.mp3", "a_chunk_2.mp3", "a_chunk_3.mp3"] := by
  have h := (c8_split_parallel_then_sequential c8Mt c8Sq).2.2 "ffmpeg crashed" rfl
  have h2 := h.2.1 ["a_chunk_1.mp3", "a_chunk_2.mp3", "a_chunk_3.mp3"] rfl
  exact ⟨h.1, h2.1, h2.2⟩

/- ===================================================================
   Helper lemmas about the orchestrator traces.
   =================================================================== -/

theorem mem_of_getLast {α : Type} {l : List α} {x : α} (h : x ∈ l.getLast?) :
    x ∈ l := by
  obtain ⟨hne, hx⟩ := List.mem_getLast?_eq_getLast h
  subst hx
  exact List.getLast_mem hne

theorem chunk_percent_le (n i : ℕ) (hn : 0 < n) (hin : i ≤ n) :
    35 + 50 * i / n ≤ 85 := by
  have h1 : 50 * i / n ≤ 50 * n / n := by
    apply Nat.div_le_div_right
    exact Nat.mul_le_mul_left _ hin
  have h2 : 50 * n / n = 50 := Nat.mul_div_cancel 50 hn
  omega

theorem chunkLoop_prog_bounds (tr : String → Except String String) (n : ℕ) :
    ∀ (cs : List String) (i : ℕ), 0 < n → i + cs.length ≤ n →
      List.Chain' (· ≤ ·) (chunkLoop tr n cs i).prog ∧
      ∀ x ∈ (chunkLoop tr n cs i).prog, 35 + 50 * i / n ≤ x ∧ x ≤ 85 := by
  intro cs
  induction cs with
  | nil =>
    intro i hn hle
    exact ⟨by simp [chunkLoop], by simp [chunkLoop]⟩
  | cons c cs ih =>
    intro i hn hle
    have hup : 35 + 50 * i / n ≤ 85 := chunk_percent_le n i hn (by simp at hle; omega)
    cases htr : tr c with
    | error e =>
      refine ⟨by simp [chunkLoop, htr], ?_⟩
      intro x hx
      simp [chunkLoop, htr] at hx
      subst hx
      exact ⟨le_refl _, hup⟩
    | ok t =>
      obtain ⟨ihc, ihb⟩ := ih (i + 1) hn (by simp at hle ⊢; omega)
      have hmono : 35 + 50 * i / n ≤ 35 + 50 * (i + 1) / n := by
        have hdm : 50 * i / n ≤ 50 * (i + 1) / n := by
          apply Nat.div_le_div_right
          exact Nat.mul_le_mul_left _ (Nat.le_succ i)
        omega
      refine ⟨?_, ?_⟩
      · simp only [chunkLoop, htr]
        rw [List.chain'_cons']
        refine ⟨?_, ihc⟩
        intro y hy
        have hym := ihb y (List.mem_of_mem_head? hy)
        omega
      · intro x hx
        simp only [chunkLoop, htr, List.mem_cons] at hx
        rcases hx with rfl | hx
        · exact ⟨le_refl _, hup⟩
        · have := ihb x hx
          exact ⟨by omega, this.2⟩

theorem chunked_prog_facts (lp : List ℕ) (h : List.Chain' (· ≤ ·) lp)
    (hb : ∀ x ∈ lp, 35 ≤ x ∧ x ≤ 85) :
    (List.Chain' (· ≤ ·) ([10, 20, 25, 35] ++ lp) ∧
      ∀ x ∈ [10, 20, 25, 35] ++ lp, 10 ≤ x ∧ x ≤ 95) ∧
    (List.Chain' (· ≤ ·) (([10, 20, 25, 35] ++ lp) ++ [85]) ∧
      ∀ x ∈ ([10, 20, 25, 35] ++ lp) ++ [85], 10 ≤ x ∧ x ≤ 95) ∧
    (List.Chain' (· ≤ ·) (([10, 20, 25, 35] ++ lp) ++ [85, 95]) ∧
      ∀ x ∈ ([10, 20, 25, 35] ++ lp) ++ [85, 95], 10 ≤ x ∧ x ≤ 95) := by
  have hhead : List.Chain' (· ≤ ·) ([10, 20, 25, 35] ++ lp) := by
    rw [List.chain'_append]
    refine ⟨by simp [List.chain'_cons], h, ?_⟩
    intro x hx y hy
    simp at hx
    have hyv := (hb y (List.mem_of_mem_head? hy)).1
    omega
  have hmem : ∀ x ∈ [10, 20, 25, 35] ++ lp, 10 ≤ x ∧ x ≤ 95 := by
    intro x hx
    rcases List.mem_append.mp hx with hx | hx
    · fin_cases hx <;> omega
    · have := hb x hx
      omega
  have hlast : ∀ x ∈ ([10, 20, 25, 35] ++ lp).getLast?, x ≤ 85 := by
    intro x hx
    rcases List.eq_nil_or_concat lp with rfl | ⟨l2, b, rfl⟩
    · simp at hx
      omega
    · rw [List.getLast?_append_of_ne_nil _ (by simp)] at hx
      exact (hb x (mem_of_getLast hx)).2
  refine ⟨⟨hhead, hmem⟩, ⟨?_, ?_⟩, ⟨?_, ?_⟩⟩
  · rw [List.chain'_append]
    refine ⟨hhead, by simp, ?_⟩
    intro x hx y hy
    simp at hy
    have := hlast x hx
    omega
  · intro x hx
    rcases List.mem_append.mp hx with hx | hx
    · exact hmem x hx
    · simp at hx
      omega
  · rw [List.chain'_append]
    refine ⟨hhead, by simp [List.chain'_cons], ?_⟩
    intro x hx y hy
    simp at hy
    have := hlast x hx
    omega
  · intro x hx
    rcases List.mem_append.mp hx with hx | hx
    · exact hmem x hx
    · simp at hx
      rcases hx with rfl | rfl <;> omega

theorem mainRun_prog (env : Env) :
    List.Chain' (· ≤ ·) (mainRun env).prog ∧
    ∀ x ∈ (mainRun env).prog, 10 ≤ x ∧ x ≤ 95 := by
  by_cases hk : env.apiKey = ""
  · simp only [mainRun, if_pos hk]
    exact ⟨by simp, by simp⟩
  cases hp : env.probe with
  | error e =>
    simp only [mainRun, if_neg hk, hp]
    exact ⟨by simp, by simp⟩
  | ok duration =>
    by_cases hd : duration ≤ env.maxDuration
    · simp only [mainRun, if_neg hk, hp, if_pos hd]
      cases htr : env.transcribe env.filePath with
      | error e => exact ⟨by simp [List.chain'_cons], by intro x hx; fin_cases hx <;> omega⟩
      | ok t =>
        by_cases ht : t = ""
        · simp only [if_pos ht]
          exact ⟨by simp [List.chain'_cons], by intro x hx; fin_cases hx <;> omega⟩
        · simp only [if_neg ht]
          cases hs : env.summarize t with
          | error e =>
            exact ⟨by simp [List.chain'_cons], by intro x hx; fin_cases hx <;> omega⟩
          | ok s =>
            exact ⟨by simp [List.chain'_cons], by intro x hx; fin_cases hx <;> omega⟩
    · simp only [mainRun, if_neg hk, hp, if_neg hd]
      cases hsp : env.split with
      | error e =>
        exact ⟨by simp [List.chain'_cons], by intro x hx; fin_cases hx <;> omega⟩
      | ok chunks =>
        by_cases hc : chunks = []
        · simp only [if_pos hc]
          exact ⟨by simp [List.chain'_cons], by intro x hx; fin_cases hx <;> omega⟩
        · simp only [if_neg hc]
          have hn : 0 < chunks.length := List.length_pos.mpr hc
          obtain ⟨hlc, hlb⟩ := chunkLoop_prog_bounds env.transcribe chunks.length
            chunks 0 hn (by omega)
          have hlb35 : ∀ x ∈ (chunkLoop env.transcribe chunks.length chunks 0).prog,
              35 ≤ x ∧ x ≤ 85 := by
            intro x hx
            have := hlb x hx
            simp at this
            omega
          obtain ⟨f1, f2, f3⟩ := chunked_prog_facts
            (chunkLoop env.transcribe chunks.length chunks 0).prog hlc hlb35
          cases hloop : (chunkLoop env.transcribe chunks.length chunks 0).res with
          | error e => exact f1
          | ok ts =>
            by_cases hj : pyJoin "\n" ts = ""
            · simp only [if_pos hj]
              exact f1
            · simp only [if_neg hj]
              cases hs : env.summarize (pyJoin "\n" ts) with
              | error e => exact f2
              | ok s => exact f3

theorem run_task_fs (env : Env) :
    (run_summarization_task env).fs = (mainRun env).fs ++ [FsEvent.rmUpload] := by
  unfold run_summarization_task
  split <;> rfl

theorem run_task_status (env : Env) :
    (run_summarization_task env).status = JobStatus.COMPLETED ∨
      (run_summarization_task env).status = JobStatus.FAILED := by
  unfold run_summarization_task
  split
  · right; rfl
  · left; rfl

theorem mainRun_fs (env : Env) :
    (mainRun env).fs = [] ∨
      (mainRun env).fs = [FsEvent.mkChunkDir, FsEvent.rmChunkDir] := by
  unfold mainRun
  repeat' split
  all_goals simp

/- ===================================================================
   Claim theorems for the orchestrator (C1, C5, C9).
   =================================================================== -/

/-- C1: the claim that a raised pipeline exception always yields a
FAILED job record fails on the code: process_single_file catches every
exception and returns the error text as the "summary" entry of its
dict (media_handler.py lines 308-310); the check in
run_summarization_task (app.py line 99) looks for an "error" key the
dict never has and only rejects an empty summary, so a job whose
transcription raised ends COMPLETED, with the error text as its
summary, a null transcript, and no error field. -/
theorem c1_error_reported_as_completed :
    (run_summarization_task c1Env).status = JobStatus.COMPLETED ∧
    (run_summarization_task c1Env).summary =
      some "An error occurred during processing: Transcription failed" ∧
    (run_summarization_task c1Env).error = none ∧
    (run_summarization_task c1Env).transcript = none := by
  refine ⟨?_, ?_, ?_, ?_⟩ <;> rfl

/-- C5: for every environment — direct or chunked path, any chunk
count, success or failure at any step — the progress sequence of the
job (initial 0 and 5, the callback values of the run, and the final
100 of a completed job) is monotonically non-decreasing, and a
COMPLETED job ends at 100. -/
theorem c5_progress_monotone (env : Env) :
    List.Chain' (· ≤ ·) (run_summarization_task env).prog ∧
    ((run_summarization_task env).status = JobStatus.COMPLETED →
      (run_summarization_task env).prog.getLast? = some 100) := by
  obtain ⟨hch, hbd⟩ := mainRun_prog env
  have hpre : List.Chain' (· ≤ ·) ([0, 5] ++ (mainRun env).prog) := by
    rw [List.chain'_append]
    refine ⟨by simp [List.chain'_cons], hch, ?_⟩
    intro x hx y hy
    simp at hx
    have := (hbd y (List.mem_of_mem_head? hy)).1
    omega
  have hlast : ∀ x ∈ ([0, 5] ++ (mainRun env).prog).getLast?, x ≤ 100 := by
    intro x hx
    rcases List.eq_nil_or_concat (mainRun env).prog with hnil | ⟨l2, b, hcat⟩
    · rw [hnil] at hx
      simp at hx
      omega
    · rw [hcat] at hx
      rw [List.getLast?_append_of_ne_nil _ (by simp)] at hx
      rw [← hcat] at hx
      have := (hbd x (mem_of_getLast hx)).2
      omega
  have hfull : List.Chain' (· ≤ ·) (([0, 5] ++ (mainRun env).prog) ++ [100]) := by
    rw [List.chain'_append]
    refine ⟨hpre, by simp, ?_⟩
    intro x hx y hy
    simp at hy
    have := hlast x hx
    omega
  unfold run_summarization_task
  split
  · refine ⟨hpre, ?_⟩
    intro h
    cases h
  · exact ⟨hfull, fun _ => List.getLast?_concat _⟩

/-- C5 witness: for the concrete chunked three-chunk success
environment, the recorded progress sequence is non-decreasing and ends
at 100. -/
theorem c5_progress_monotone_witness :
    List.Chain' (· ≤ ·) (run_summarization_task c5Env).prog ∧
    (run_summarization_task c5Env).prog.getLast? = some 100 := by
  refine ⟨(c5_progress_monotone c5Env).1, (c5_progress_monotone c5Env).2 ?_⟩
  rfl

/-- C9: for every environment — COMPLETED or FAILED, any path — the
uploaded temp file is removed exactly once, as the final filesystem
action of the job; the chunk directory, when created, is removed; and
the job ends in a terminal state. -/
theorem c9_terminal_cleanup (env : Env) :
    (run_summarization_task env).fs.count FsEvent.rmUpload = 1 ∧
    (run_summarization_task env).fs.getLast? = some FsEvent.rmUpload ∧
    (run_summarization_task env).fs.count FsEvent.mkChunkDir =
      (run_summarization_task env).fs.count FsEvent.rmChunkDir ∧
    ((run_summarization_task env).status = JobStatus.COMPLETED ∨
      (run_summarization_task env).status = JobStatus.FAILED) := by
  have hfs := run_task_fs env
  rcases mainRun_fs env with h | h
  · rw [hfs, h]
    exact ⟨by decide, by decide, by decide, run_task_status env⟩
  · rw [hfs, h]
    exact ⟨by decide, by decide, by decide, run_task_status env⟩

/- ===================================================================
   Claim theorems for the direct path (C6) and the all-empty-chunk
   join (C10).
   =================================================================== -/

/-- C6: when the probe reports a duration at most `max_duration_seconds`
(and the API key is present), the job takes the direct path: the
splitter never runs, exactly the whole file is sent to transcription
once; if that transcription succeeds with a non-empty transcript,
exactly one summarization call is made on that transcript and its
outcome is the result of the run; if the transcription returns an
empty result, the run raises the empty-result error and no
summarization call is made. -/
theorem c6_direct_path (env : Env) (d : ℚ) (hk : env.apiKey ≠ "")
    (hp : env.probe = .ok d) (hd : d ≤ env.maxDuration) :
    (mainRun env).splitCalls = 0 ∧
    (mainRun env).transcribeInputs = [env.filePath] ∧
    (∀ t, env.transcribe env.filePath = .ok t → t ≠ "" →
      (mainRun env).summarizeInputs = [t] ∧
      (mainRun env).result = (env.summarize t).map fun s => (s, t)) ∧
    (env.transcribe env.filePath = .ok "" →
      (mainRun env).result = .error "Transcription returned an empty result." ∧
      (mainRun env).summarizeInputs = []) := by
  simp only [mainRun, if_neg hk, hp, if_pos hd]
  refine ⟨?_, ?_, ?_, ?_⟩
  · cases htr : env.transcribe env.filePath with
    | error e => rfl
    | ok t =>
      by_cases ht : t = ""
      · simp only [if_pos ht]
      · simp only [if_neg ht]
        cases hs : env.summarize t <;> rfl
  · cases htr : env.transcribe env.filePath with
    | error e => rfl
    | ok t =>
      by_cases ht : t = ""
      · simp only [if_pos ht]
      · simp only [if_neg ht]
        cases hs : env.summarize t <;> rfl
  · intro t htr hne
    simp only [htr, if_neg hne]
    cases hs : env.summarize t with
    | error e => exact ⟨rfl, rfl⟩
    | ok s => exact ⟨rfl, rfl⟩
  · intro htr
    simp only [htr, if_pos rfl]
    exact ⟨rfl, rfl⟩

/-- C6 witness: a 600-second file with an 1800-second threshold is
transcribed once as a whole, summarized once on the transcript, and
the run returns that summary with the transcript. -/
theorem c6_direct_path_witness :
    (mainRun c6Env).splitCalls = 0 ∧
    (mainRun c6Env).transcribeInputs = ["upload.mp4"] ∧
    (mainRun c6Env).summarizeInputs = ["a transcript"] ∧
    (mainRun c6Env).result =
      Except.ok ("summary of a transcript", "a transcript") := by
  have h := c6_direct_path c6Env 600 (by decide) rfl (by decide)
  have h3 := h.2.2.1 "a transcript" rfl (by decide)
  refine ⟨h.1, h.2.1, h3.1, ?_⟩
  rw [h3.2]
  rfl

theorem chunkLoop_all_empty (tr : String → Except String String) (n : ℕ) :
    ∀ (cs : List String) (i : ℕ), (∀ c ∈ cs, tr c = .ok "") →
      (chunkLoop tr n cs i).res = .ok (List.replicate cs.length "") ∧
      (chunkLoop tr n cs i).inputs = cs := by
  intro cs
  induction cs with
  | nil => intro i h; exact ⟨rfl, rfl⟩
  | cons c cs ih =>
    intro i h
    have hc := h c (List.mem_cons_self c cs)
    obtain ⟨h1, h2⟩ := ih (i + 1) (fun x hx => h x (List.mem_cons_of_mem _ hx))
    refine ⟨?_, ?_⟩
    · simp only [chunkLoop, hc, h1, List.length_cons, List.replicate_succ]
      rfl
    · simp only [chunkLoop, hc, h2]

theorem pyJoin_replicate_empty_data :
    ∀ n, (pyJoin "\n" (List.replicate n "")).data = List.replicate (n - 1) '\n'
  | 0 => rfl
  | 1 => rfl
  | (n + 2) => by
    have ih := pyJoin_replicate_empty_data (n + 1)
    rw [List.replicate_succ] at ih
    rw [List.replicate_succ, List.replicate_succ]
    simp only [pyJoin, String.data_append]
    rw [ih]
    simp [List.replicate_succ]

/-- C10: on the chunked path with at least two chunks, if every chunk
transcription returns the empty string, the joined transcript is a
string of `count - 1` newline characters, which is non-empty, so the
empty-transcript check does not fire and the run hands this
whitespace-only transcript to summarization instead of failing. -/
theorem c10_empty_chunks_join_nonempty (env : Env) (d : ℚ) (chunks : List String)
    (hk : env.apiKey ≠ "") (hp : env.probe = .ok d) (hd : env.maxDuration < d)
    (hs : env.split = .ok chunks) (h2 : 2 ≤ chunks.length)
    (he : ∀ c ∈ chunks, env.transcribe c = .ok "") :
    newlines (chunks.length - 1) ≠ "" ∧
    (mainRun env).summarizeInputs = [newlines (chunks.length - 1)] ∧
    (mainRun env).result = (env.summarize (newlines (chunks.length - 1))).map
      (fun s => (s, newlines (chunks.length - 1))) := by
  have hcne : chunks ≠ [] := by
    intro hnil
    rw [hnil] at h2
    simp at h2
  have hjoin : pyJoin "\n" (List.replicate chunks.length "") =
      newlines (chunks.length - 1) := by
    apply String.ext
    rw [pyJoin_replicate_empty_data]
    rfl
  have hne : newlines (chunks.length - 1) ≠ "" := by
    intro hemp
    have hdata := congrArg String.data hemp
    have hrepl : List.replicate (chunks.length - 1) '\n' = [] := hdata
    have hlen := congrArg List.length hrepl
    simp at hlen
    omega
  obtain ⟨hres, _⟩ := chunkLoop_all_empty env.transcribe chunks.length chunks 0 he
  simp only [mainRun, if_neg hk, hp, if_neg (not_le.mpr hd), hs, if_neg hcne,
    hres, hjoin, if_neg hne]
  refine ⟨hne, ?_, ?_⟩
  · cases hsum : env.summarize (newlines (chunks.length - 1)) <;> rfl
  · cases hsum : env.summarize (newlines (chunks.length - 1)) <;> rfl

/-- C10 witness: two chunks with empty transcriptions give the joined
transcript a single newline, which is summarized rather than failing
the run. -/
theorem c10_empty_chunks_join_nonempty_witness :
    (mainRun c10Env).summarizeInputs = ["\n"] ∧
    (mainRun c10Env).result = Except.ok ("summary of \n", "\n") := by
  have h := c10_empty_chunks_join_nonempty c10Env 3600 ["c1.mp3", "c2.mp3"]
    (by decide) rfl (by decide) rfl (by decide) (fun c _ => rfl)
  refine ⟨h.2.1, ?_⟩
  rw [h.2.2]
  rfl
